import Mathlib

/-!
Verification of the scan API core (`ophyd/userapi/scan_api.py`):
trajectory generation (`ScanND.calcLinearPath`, `ScanND.calculatePath`,
`ScanND.__call__`) and the scan execution lifecycle (`Scan.run` with its
context-manager `__enter__`/`__exit__`, the layered trigger/detector
getters, and the differential-scan `DScan.preScan`/`DScan.postScan`).

Numeric setpoints are modelled over `ℚ` (the Python code computes with
`numpy` floats; the rational model gives the same values on the exact
grids the spec discusses).
-/

namespace ScanApi

/-- Model of `numpy.linspace start stop npts` (with inclusive endpoint, the
numpy default used by `ScanND.calcLinearPath`): `npts` evenly spaced points
from `start` to `stop`.  For `npts = 1` numpy returns `[start]`. -/
def calcLinearPath (start stop : ℚ) (npts : Nat) : List ℚ :=
  if npts = 0 then []
  else if npts = 1 then [start]
  else (List.range npts).map
    (fun i : Nat => start + (stop - start) * (i : ℚ) / ((npts : ℚ) - 1))

/-- Model of `numpy.repeat xs k`: each element repeated `k` times
consecutively. -/
def npRepeat (xs : List ℚ) (k : Nat) : List ℚ :=
  (xs.map (List.replicate k)).flatten

/-- Model of `numpy.tile xs m`: the whole list repeated end-to-end `m`
times. -/
def npTile (xs : List ℚ) (m : Nat) : List ℚ :=
  (List.replicate m xs).flatten

/-- Model of `ScanND.calculatePath start stop npts dim`: the flattened
trajectory for
dimension `dim`.  `npts` is the list of effective per-dimension point counts
(the caller has already added 1 to each requested sample count).  Mirrors
`a = linspace(start, stop, npts[dim]); x = N[::-1][:len(N)-dim-1];
y = N[:dim]; a = repeat(a, x.prod()); a = tile(a, y.prod())`. -/
def calculatePath (start stop : ℚ) (npts : List Nat) (dim : Nat) : List ℚ :=
  let a := calcLinearPath start stop (npts.getD dim 0)
  let x := npts.reverse.take (npts.length - dim - 1)
  let y := npts.take dim
  npTile (npRepeat a x.prod) y.prod

/-- Model of the generation loop in the call method of `ScanND`: for each
dimension `d` (zipped with
`start`/`stop`), every positioner in group `d` is appended to `pos` and a
copy of `calculatePath b e npts d` is appended to `paths`.  `npts` is the
requested sample counts plus one (`npts = np.asarray(npts) + 1`).
Returns `(pos, paths)`. -/
def scanNDGenerate {P : Type} (groups : List (List P))
    (start stop : List ℚ) (counts : List Nat) : List P × List (List ℚ) :=
  let npts := counts.map (· + 1)
  let triples := start.zip (stop.zip (List.range counts.length))
  let pos := (triples.map (fun t => groups.getD t.2.2 [])).flatten
  let paths := (triples.map (fun t =>
      (groups.getD t.2.2 []).map
        (fun _ => calculatePath t.1 t.2.1 npts t.2.2))).flatten
  (pos, paths)

theorem length_calcLinearPath (start stop : ℚ) (npts : Nat) :
    (calcLinearPath start stop npts).length = npts := by
  unfold calcLinearPath
  by_cases h0 : npts = 0
  · simp [h0]
  · by_cases h1 : npts = 1
    · simp [h0, h1]
    · rw [if_neg h0, if_neg h1, List.length_map, List.length_range]

theorem length_npRepeat (xs : List ℚ) (k : Nat) :
    (npRepeat xs k).length = xs.length * k := by
  unfold npRepeat
  rw [List.length_flatten]
  induction xs with
  | nil => simp
  | cons x xs ih =>
      simp only [List.map_cons, List.map_cons, List.sum_cons,
        List.length_replicate, List.length_cons] at *
      rw [ih]
      ring

theorem length_npTile (xs : List ℚ) (m : Nat) :
    (npTile xs m).length = m * xs.length := by
  unfold npTile
  rw [List.length_flatten]
  induction m with
  | zero => simp
  | succ n ih =>
      simp only [List.replicate_succ, List.map_cons, List.sum_cons] at *
      rw [ih]
      ring

theorem reverse_take_sub (npts : List Nat) (d : Nat) (hd : d < npts.length) :
    npts.reverse.take (npts.length - d - 1) = (npts.drop (d + 1)).reverse := by
  have h := List.rtake_eq_reverse_take_reverse npts (npts.length - d - 1)
  unfold List.rtake at h
  have hidx : npts.length - (npts.length - d - 1) = d + 1 := by omega
  rw [hidx] at h
  calc npts.reverse.take (npts.length - d - 1)
      = (npts.reverse.take (npts.length - d - 1)).reverse.reverse := by
        rw [List.reverse_reverse]
    _ = (npts.drop (d + 1)).reverse := by rw [← h]

theorem prod_split (npts : List Nat) (d : Nat) (hd : d < npts.length) :
    npts.prod =
      (npts.take d).prod * (npts.getD d 0 * (npts.drop (d + 1)).prod) := by
  have h1 : npts.drop d = npts.getD d 0 :: npts.drop (d + 1) := by
    rw [List.getD_eq_getElem npts 0 hd]
    exact List.drop_eq_getElem_cons hd
  calc npts.prod = (npts.take d).prod * (npts.drop d).prod :=
        (List.prod_take_mul_prod_drop npts d).symm
    _ = (npts.take d).prod * (npts.getD d 0 * (npts.drop (d + 1)).prod) := by
        rw [h1, List.prod_cons]

theorem length_calculatePath (start stop : ℚ) (npts : List Nat) (d : Nat)
    (hd : d < npts.length) :
    (calculatePath start stop npts d).length = npts.prod := by
  unfold calculatePath
  rw [length_npTile, length_npRepeat, length_calcLinearPath,
    reverse_take_sub npts d hd, List.prod_reverse,
    prod_split npts d hd]

/-- C2: for every valid dimension specification (equal-length groups, starts,
stops, and sample counts, each count at least 1), every trajectory produced
by `ScanND.__call__` has length `∏ d, (counts d + 1)`, and the number of
trajectories equals the number of positioners emitted. -/
theorem scanND_trajectory_lengths {P : Type} (groups : List (List P))
    (start stop : List ℚ) (counts : List Nat)
    (hg : groups.length = counts.length) (hs : start.length = counts.length)
    (he : stop.length = counts.length) (hc : ∀ c ∈ counts, 1 ≤ c) :
    (∀ path ∈ (scanNDGenerate groups start stop counts).2,
        path.length = (counts.map (· + 1)).prod) ∧
    (scanNDGenerate groups start stop counts).2.length
      = (scanNDGenerate groups start stop counts).1.length := by
  constructor
  · intro path hpath
    unfold scanNDGenerate at hpath
    simp only [List.mem_flatten, List.mem_map] at hpath
    obtain ⟨l, ⟨t, ht, rfl⟩, hpl⟩ := hpath
    obtain ⟨b, e, d⟩ := t
    rw [List.mem_map] at hpl
    obtain ⟨p, hp, rfl⟩ := hpl
    have hd : d < counts.length := by
      have h1 := (List.of_mem_zip ht).2
      have h2 := (List.of_mem_zip h1).2
      exact List.mem_range.mp h2
    exact length_calculatePath b e (counts.map (· + 1)) d
      (by rw [List.length_map]; exact hd)
  · unfold scanNDGenerate
    simp only [List.length_flatten, List.map_map]
    congr 1
    apply List.map_congr_left
    intro t ht
    simp [Function.comp]

/-- C9: for a single dimension with start 0, stop 10 and sample count 5, the
generated trajectory is exactly `[0, 2, 4, 6, 8, 10]` — six evenly spaced
points covering the interval inclusively: `calcLinearPath` on the effective
count 6, and the full generator on the spec `(0, 10, 5)`. -/
theorem oneD_linear_path_example :
    calcLinearPath 0 10 6 = [(0 : ℚ), 2, 4, 6, 8, 10] ∧
    scanNDGenerate [[0]] [0] [10] [5]
      = ([(0 : Nat)], [[(0 : ℚ), 2, 4, 6, 8, 10]]) := by
  constructor
  · simp [calcLinearPath, List.range_succ]
    norm_num
  · simp [scanNDGenerate, calculatePath, calcLinearPath, npRepeat, npTile,
      List.range_succ]
    norm_num

theorem npRepeat_cons (x : ℚ) (xs : List ℚ) (k : Nat) :
    npRepeat (x :: xs) k = List.replicate k x ++ npRepeat xs k := rfl

theorem npTile_succ (xs : List ℚ) (m : Nat) :
    npTile xs (m + 1) = xs ++ npTile xs m := rfl

theorem getD_replicate_lt (k i : Nat) (x : ℚ) (h : i < k) :
    (List.replicate k x).getD i 0 = x := by
  rw [List.getD_eq_getElem _ _ (by simpa using h)]
  simp

theorem npRepeat_getD (xs : List ℚ) (k : Nat) (hk : 0 < k) :
    ∀ i, i < xs.length * k → (npRepeat xs k).getD i 0 = xs.getD (i / k) 0 := by
  induction xs with
  | nil => intro i hi; simp at hi
  | cons x xs ih =>
      intro i hi
      rw [npRepeat_cons]
      by_cases h : i < k
      · rw [List.getD_append _ _ _ _ (by simpa using h),
          getD_replicate_lt k i x h, Nat.div_eq_of_lt h]
        simp
      · have hki : k ≤ i := Nat.le_of_not_lt h
        rw [List.getD_append_right _ _ _ _ (by simpa using hki),
          List.length_replicate]
        have hbound : i - k < xs.length * k := by
          rw [List.length_cons, Nat.succ_mul] at hi
          omega
        rw [ih (i - k) hbound]
        have hdiv : i / k = (i - k) / k + 1 := by
          have := Nat.add_div_right (i - k) hk
          rw [Nat.sub_add_cancel hki] at this
          exact this
        rw [hdiv]
        simp [List.getD_cons_succ]

theorem npTile_getD (xs : List ℚ) :
    ∀ m i, i < m * xs.length →
      (npTile xs m).getD i 0 = xs.getD (i % xs.length) 0 := by
  intro m
  induction m with
  | zero => intro i hi; simp at hi
  | succ n ih =>
      intro i hi
      rw [npTile_succ]
      by_cases h : i < xs.length
      · rw [List.getD_append _ _ _ _ h, Nat.mod_eq_of_lt h]
      · have hlen : xs.length ≤ i := Nat.le_of_not_lt h
        rw [List.getD_append_right _ _ _ _ hlen]
        have hbound : i - xs.length < n * xs.length := by
          rw [Nat.succ_mul] at hi
          omega
        rw [ih (i - xs.length) hbound, Nat.mod_eq_sub_mod hlen]

theorem calculatePath_decomp (start stop : ℚ) (npts : List Nat) (d : Nat)
    (hd : d < npts.length) :
    calculatePath start stop npts d
      = npTile (npRepeat (calcLinearPath start stop (npts.getD d 0))
          ((npts.drop (d + 1)).prod)) ((npts.take d).prod) := by
  unfold calculatePath
  rw [reverse_take_sub npts d hd]
  simp only [List.prod_reverse]

theorem calculatePath_getD (start stop : ℚ) (npts : List Nat) (d k : Nat)
    (hd : d < npts.length) (hpos : ∀ n ∈ npts, 0 < n) (hk : k < npts.prod) :
    (calculatePath start stop npts d).getD k 0
      = (calcLinearPath start stop (npts.getD d 0)).getD
          ((k / (npts.drop (d + 1)).prod) % npts.getD d 0) 0 := by
  have hnd : 0 < npts.getD d 0 := by
    rw [List.getD_eq_getElem npts 0 hd]
    exact hpos _ (List.getElem_mem hd)
  have hinner : 0 < (npts.drop (d + 1)).prod :=
    List.prod_pos (fun a ha => hpos a (List.mem_of_mem_drop ha))
  have hlenrep :
      (npRepeat (calcLinearPath start stop (npts.getD d 0))
        ((npts.drop (d + 1)).prod)).length
        = npts.getD d 0 * (npts.drop (d + 1)).prod := by
    rw [length_npRepeat, length_calcLinearPath]
  have hkbound : k < (npts.take d).prod
      * (npRepeat (calcLinearPath start stop (npts.getD d 0))
          ((npts.drop (d + 1)).prod)).length := by
    rw [hlenrep]
    calc k < npts.prod := hk
      _ = (npts.take d).prod * (npts.getD d 0 * (npts.drop (d + 1)).prod) :=
        prod_split npts d hd
  rw [calculatePath_decomp start stop npts d hd,
    npTile_getD _ _ _ hkbound, hlenrep,
    npRepeat_getD _ _ hinner _
      (by rw [length_calcLinearPath]
          exact Nat.mod_lt _ (Nat.mul_pos hnd hinner)),
    Nat.mul_comm (npts.getD d 0) ((npts.drop (d + 1)).prod),
    Nat.mod_mul_right_div_self]

/-- C3: the generator orders the grid as a lexicographic Cartesian product,
dimension 0 slowest and the last dimension fastest.  (i) Each dimension has
its
linear sequence is inner-repeated by the product of the effective counts of
all higher-index dimensions and outer-tiled by the product of the effective
counts of all lower-index dimensions.  (ii) The entry at flat index `k` is
the linear point of index `(k / innerRepeat) % count_d` — monotone in `k`
within each tile, so the direction never reverses (not serpentine).
(iii) For D0 = (0,1,1) and D1 = (0,10,2) the D0 trajectory is
`[0,0,0,1,1,1]` and the D1 trajectory is `[0,5,10,0,5,10]`. -/
theorem lexicographic_grid_ordering :
    (∀ (start stop : ℚ) (npts : List Nat) (d : Nat), d < npts.length →
        calculatePath start stop npts d
          = npTile (npRepeat (calcLinearPath start stop (npts.getD d 0))
              ((npts.drop (d + 1)).prod)) ((npts.take d).prod)) ∧
    (∀ (start stop : ℚ) (npts : List Nat) (d k : Nat), d < npts.length →
        (∀ n ∈ npts, 0 < n) → k < npts.prod →
        (calculatePath start stop npts d).getD k 0
          = (calcLinearPath start stop (npts.getD d 0)).getD
              ((k / (npts.drop (d + 1)).prod) % npts.getD d 0) 0) ∧
    scanNDGenerate [[0], [1]] [0, 0] [1, 10] [1, 2]
      = ([0, 1], [[(0 : ℚ), 0, 0, 1, 1, 1], [0, 5, 10, 0, 5, 10]]) := by
  refine ⟨fun start stop npts d hd => calculatePath_decomp start stop npts d hd,
    fun start stop npts d k hd hpos hk =>
      calculatePath_getD start stop npts d k hd hpos hk, ?_⟩
  simp [scanNDGenerate, calculatePath, calcLinearPath, npRepeat, npTile,
    List.range_succ]
  norm_num

/-- Witness for C3 at concrete inputs: npts = [2, 3], dimension 1,
flat index 4. -/
theorem lexicographic_grid_ordering_witness :
    ((1 : Nat) < [2, 3].length ∧ (∀ n ∈ [2, 3], 0 < n) ∧ (4 : Nat) < [2, 3].prod) ∧
    calculatePath 0 10 [2, 3] 1
      = npTile (npRepeat (calcLinearPath 0 10 ([2, 3].getD 1 0))
          (([2, 3].drop 2).prod)) (([2, 3].take 1).prod) ∧
    (calculatePath 0 10 [2, 3] 1).getD 4 0
      = (calcLinearPath 0 10 ([2, 3].getD 1 0)).getD
          ((4 / ([2, 3].drop 2).prod) % [2, 3].getD 1 0) 0 :=
  ⟨⟨by decide, by decide, by decide⟩,
   lexicographic_grid_ordering.1 0 10 [2, 3] 1 (by decide),
   lexicographic_grid_ordering.2.1 0 10 [2, 3] 1 4 (by decide) (by decide)
     (by decide)⟩

/-! Scan lifecycle (`Scan.run`, `Scan.__enter__`/`__exit__`, accessors).

The lifecycle is modelled by explicit state passing.  A `ScanState` carries
the instance attributes set by `Scan.__init__`; the overridable hooks
(`checkPaths`, `preScan`, `postScan`, `setupDetectors`, `setupTriggers`)
and the external `RunEngine.start_run` call are parameters returning
`Except`, standing for Python methods that may raise.  `runScan` mirrors
`Scan.run` line by line, including the context-manager semantics of
`with self:` — `__enter__` runs `preScan()`; `__exit__` runs `postScan()`
and returns `False` (so the in-flight exception is re-raised); if
`__enter__` itself raises, `__exit__` is never invoked.  A trace of events
records each hook invocation and the engine dispatch. -/

/-- The positioner capability surface used by the scan core: a reported
`position`, an assigned `trajectory` (`set_trajectory`), and a `moving`
flag.  `move(target, wait=True)` is modelled as arriving at the target and
no longer moving (the code then polls `while any(p.moving)`). -/
structure Positioner where
  position : ℚ
  trajectory : List ℚ
  moving : Bool

/-- Model of `pos.set_trajectory(path)`. -/
def setTrajectory (p : Positioner) (t : List ℚ) : Positioner :=
  { p with trajectory := t }

/-- Model of `pos.move(target, wait=True)`: block until arrival. -/
def moveTo (p : Positioner) (target : ℚ) : Positioner :=
  { p with position := target, moving := false }

/-- Model of `for pos, path in zip(self.positioners, self.paths):
pos.set_trajectory(path)` — `zip` truncates at the shorter list, so
positioners beyond `paths` keep their old trajectory. -/
def setTrajectories : List Positioner → List (List ℚ) → List Positioner
  | ps, [] => ps
  | [], _ => []
  | p :: ps, t :: ts => setTrajectory p t :: setTrajectories ps ts

/-- Model of `for pos, start in zip(self.positioners, self._start_positions):
pos.move(start, wait=True)` — `zip` truncates at the shorter list. -/
def moveAll : List Positioner → List ℚ → List Positioner
  | ps, [] => ps
  | [], _ => []
  | p :: ps, t :: ts => moveTo p t :: moveAll ps ts

/-- The instance attributes set up by `Scan.__init__` (and
`_start_positions`, which `DScan.preScan` adds).  `D`/`T` are the abstract
detector and trigger handle types, `δ` the abstract dataset type. -/
structure ScanState (D T δ : Type) where
  runId : Nat
  lastData : Option δ
  triggersOv : Option (List T)
  detectorsOv : Option (List D)
  defaultTriggers : List T
  defaultDetectors : List D
  settleTime : Option ℚ
  paths : List (List ℚ)
  positioners : List Positioner
  startPositions : List ℚ

/-- Model of `Scan.__init__`: `_run_id = 0`, `_last_data = None`,
`triggers = None`,
`detectors = None`, empty default lists, `settle_time = None`, empty
`paths`/`positioners`. -/
def initState (D T δ : Type) : ScanState D T δ :=
  { runId := 0, lastData := none, triggersOv := none, detectorsOv := none,
    defaultTriggers := [], defaultDetectors := [], settleTime := none,
    paths := [], positioners := [], startPositions := [] }

/-- The `Scan.run_id` property: returns `self._run_id`. -/
def run_id {D T δ : Type} (s : ScanState D T δ) : Nat :=
  s.runId

/-- The `Scan.data` property: returns `self._last_data`. -/
def data {D T δ : Type} (s : ScanState D T δ) : Option δ :=
  s.lastData

/-- The `Scan.triggers` property getter: the per-scan list (if set) with
the default list appended, else the default list alone. -/
def effTriggers {D T δ : Type} (s : ScanState D T δ) : List T :=
  match s.triggersOv with
  | none => s.defaultTriggers
  | some t => t ++ s.defaultTriggers

/-- The `Scan.detectors` property getter: the per-scan list (if set) with
the default list appended, else the default list alone. -/
def effDetectors {D T δ : Type} (s : ScanState D T δ) : List D :=
  match s.detectorsOv with
  | none => s.defaultDetectors
  | some d => d ++ s.defaultDetectors

/-- A value stored in the `scan_args` dict built by `Scan.run`. -/
inductive ScanArgVal (D T : Type) where
  | detectorList (l : List D)
  | triggerList (l : List T)
  | positionerList (l : List Positioner)
  | settle (t : Option ℚ)

/-- The `scan_args` dict exactly as `Scan.run` builds it:
it assigns, in order, the detectors key from `self.detectors`, the
triggers key from `self.triggers`, the positioners key from
`self.positioners`, and the settle_time key from `self.settle_time`. -/
def mkScanArgs {D T δ : Type} (s : ScanState D T δ) :
    List (String × ScanArgVal D T) :=
  [("detectors", ScanArgVal.detectorList (effDetectors s)),
   ("triggers", ScanArgVal.triggerList (effTriggers s)),
   ("positioners", ScanArgVal.positionerList s.positioners),
   ("settle_time", ScanArgVal.settle s.settleTime)]

/-- One recorded hook invocation or engine dispatch during `Scan.run`. -/
inductive Event (D T : Type) where
  | checkPaths
  | preScan
  | postScan
  | setupDetectors
  | setupTriggers
  | startRun (runId : Nat) (args : List (String × ScanArgVal D T))

/-- The overridable lifecycle hooks (all default to no-ops in `Scan`;
subclasses such as `DScan` replace them).  Each may raise (`Except ε`). -/
structure ScanHooks (D T δ ε : Type) where
  checkPaths : ScanState D T δ → Except ε (ScanState D T δ)
  preScan : ScanState D T δ → Except ε (ScanState D T δ)
  postScan : ScanState D T δ → Except ε (ScanState D T δ)
  setupDetectors : ScanState D T δ → Except ε (ScanState D T δ)
  setupTriggers : ScanState D T δ → Except ε (ScanState D T δ)

/-- The `RunEngine.start_run(run_id, scan_args)` boundary. -/
def EngineCall (D T δ ε : Type) : Type :=
  Nat → List (String × ScanArgVal D T) → Except ε δ

/-- Outcome of one `Scan.run()` invocation: the propagated result, the
final instance state, and the trace of hook/engine invocations. -/
structure RunOutcome (D T δ ε : Type) where
  result : Except ε Unit
  state : ScanState D T δ
  trace : List (Event D T)

/-- The trajectory-assignment loop of `Scan.run`. -/
def assignTrajectories {D T δ : Type} (s : ScanState D T δ) :
    ScanState D T δ :=
  { s with positioners := setTrajectories s.positioners s.paths }

/-- The body of the `with self:` block in `Scan.run`: `setupDetectors()`,
`setupTriggers()`, assign trajectories, build `scan_args`, call
`self._run_eng.start_run(self._run_id + 1, scan_args)` and store the
returned dataset in `self.data`.  Returns the outcome of the body, the state
reached, and the events emitted inside the block. -/
def runBody {D T δ ε : Type} (hooks : ScanHooks D T δ ε)
    (engine : EngineCall D T δ ε) (s2 : ScanState D T δ) :
    Except ε Unit × ScanState D T δ × List (Event D T) :=
  match hooks.setupDetectors s2 with
  | .error e => (.error e, s2, [Event.setupDetectors])
  | .ok s3 =>
    match hooks.setupTriggers s3 with
    | .error e => (.error e, s3, [Event.setupDetectors, Event.setupTriggers])
    | .ok s4 =>
      match engine (s4.runId + 1) (mkScanArgs (assignTrajectories s4)) with
      | .error e =>
          (.error e, assignTrajectories s4,
           [Event.setupDetectors, Event.setupTriggers,
            Event.startRun (s4.runId + 1) (mkScanArgs (assignTrajectories s4))])
      | .ok d =>
          (.ok (), { assignTrajectories s4 with lastData := some d },
           [Event.setupDetectors, Event.setupTriggers,
            Event.startRun (s4.runId + 1) (mkScanArgs (assignTrajectories s4))])

/-- Model of `Scan.run()`: `checkPaths()`, then `with self:` (whose
`__enter__` is
`preScan()` and whose `__exit__` is `postScan()` returning `False`) around
`runBody`.  If `checkPaths` or `__enter__` raises, the block is never
entered and `__exit__` is not invoked; otherwise `postScan()` runs on every
exit path, and a raised condition inside the block is re-raised after it
(an error raised by `postScan()` itself propagates instead). -/
def runScan {D T δ ε : Type} (hooks : ScanHooks D T δ ε)
    (engine : EngineCall D T δ ε) (s0 : ScanState D T δ) :
    RunOutcome D T δ ε :=
  match hooks.checkPaths s0 with
  | .error e => ⟨.error e, s0, [Event.checkPaths]⟩
  | .ok s1 =>
    match hooks.preScan s1 with
    | .error e => ⟨.error e, s1, [Event.checkPaths, Event.preScan]⟩
    | .ok s2 =>
      match runBody hooks engine s2 with
      | (r, sb, tr) =>
        match hooks.postScan sb with
        | .error e2 =>
            ⟨.error e2, sb,
             Event.checkPaths :: Event.preScan :: (tr ++ [Event.postScan])⟩
        | .ok sf =>
            ⟨r, sf,
             Event.checkPaths :: Event.preScan :: (tr ++ [Event.postScan])⟩

def isPostScanEvent {D T : Type} : Event D T → Bool
  | .postScan => true
  | _ => false

def isPreScanEvent {D T : Type} : Event D T → Bool
  | .preScan => true
  | _ => false

/-- Number of `postScan()` invocations recorded in a trace. -/
def countPostScan {D T : Type} (tr : List (Event D T)) : Nat :=
  (tr.filter isPostScanEvent).length

/-- Number of `preScan()` invocations recorded in a trace. -/
def countPreScan {D T : Type} (tr : List (Event D T)) : Nat :=
  (tr.filter isPreScanEvent).length

/-- The run ids of the engine dispatches recorded in a trace. -/
def startRunIds {D T : Type} (tr : List (Event D T)) : List Nat :=
  tr.filterMap (fun ev => match ev with
    | .startRun i _ => some i
    | _ => none)

/-- The `scan_args` dicts of the engine dispatches recorded in a trace. -/
def startRunArgs {D T : Type} (tr : List (Event D T)) :
    List (List (String × ScanArgVal D T)) :=
  tr.filterMap (fun ev => match ev with
    | .startRun _ a => some a
    | _ => none)

theorem runBody_no_postScan {D T δ ε : Type} (hooks : ScanHooks D T δ ε)
    (engine : EngineCall D T δ ε) (s2 : ScanState D T δ) :
    countPostScan (runBody hooks engine s2).2.2 = 0 := by
  unfold runBody
  cases hsd : hooks.setupDetectors s2 with
  | error e => simp [hsd, countPostScan, isPostScanEvent]
  | ok s3 =>
    cases hst : hooks.setupTriggers s3 with
    | error e => simp [hsd, hst, countPostScan, isPostScanEvent]
    | ok s4 =>
      cases heng : engine (s4.runId + 1) (mkScanArgs (assignTrajectories s4)) with
      | error e => simp [hsd, hst, heng, countPostScan, isPostScanEvent]
      | ok d => simp [hsd, hst, heng, countPostScan, isPostScanEvent]

theorem runScan_eq_of_ok {D T δ ε : Type} {hooks : ScanHooks D T δ ε}
    {engine : EngineCall D T δ ε} {s0 s1 s2 sb sf : ScanState D T δ}
    {r : Except ε Unit} {tr : List (Event D T)}
    (h1 : hooks.checkPaths s0 = .ok s1) (h2 : hooks.preScan s1 = .ok s2)
    (hb : runBody hooks engine s2 = (r, sb, tr))
    (hp : hooks.postScan sb = .ok sf) :
    runScan hooks engine s0
      = ⟨r, sf, Event.checkPaths :: Event.preScan
          :: (tr ++ [Event.postScan])⟩ := by
  simp only [runScan, h1, h2, hb, hp]

theorem countPostScan_shape {D T : Type} (tr : List (Event D T)) :
    countPostScan (Event.checkPaths :: Event.preScan
        :: (tr ++ [Event.postScan]))
      = countPostScan tr + 1 := by
  simp [countPostScan, isPostScanEvent, List.filter_append]

theorem runBody_eq_sdErr {D T δ ε : Type} {hooks : ScanHooks D T δ ε}
    (engine : EngineCall D T δ ε) {s2 : ScanState D T δ} {e : ε}
    (hsd : hooks.setupDetectors s2 = .error e) :
    runBody hooks engine s2 = (.error e, s2, [Event.setupDetectors]) := by
  simp only [runBody, hsd]

theorem runBody_eq_stErr {D T δ ε : Type} {hooks : ScanHooks D T δ ε}
    (engine : EngineCall D T δ ε) {s2 s3 : ScanState D T δ} {e : ε}
    (hsd : hooks.setupDetectors s2 = .ok s3)
    (hst : hooks.setupTriggers s3 = .error e) :
    runBody hooks engine s2
      = (.error e, s3, [Event.setupDetectors, Event.setupTriggers]) := by
  simp only [runBody, hsd, hst]

theorem runBody_eq_engErr {D T δ ε : Type} {hooks : ScanHooks D T δ ε}
    {engine : EngineCall D T δ ε} {s2 s3 s4 : ScanState D T δ} {e : ε}
    (hsd : hooks.setupDetectors s2 = .ok s3)
    (hst : hooks.setupTriggers s3 = .ok s4)
    (heng : engine (s4.runId + 1) (mkScanArgs (assignTrajectories s4))
      = .error e) :
    runBody hooks engine s2
      = (.error e, assignTrajectories s4,
         [Event.setupDetectors, Event.setupTriggers,
          Event.startRun (s4.runId + 1)
            (mkScanArgs (assignTrajectories s4))]) := by
  simp only [runBody, hsd, hst, heng]

theorem runBody_eq_engOk {D T δ ε : Type} {hooks : ScanHooks D T δ ε}
    {engine : EngineCall D T δ ε} {s2 s3 s4 : ScanState D T δ} {d : δ}
    (hsd : hooks.setupDetectors s2 = .ok s3)
    (hst : hooks.setupTriggers s3 = .ok s4)
    (heng : engine (s4.runId + 1) (mkScanArgs (assignTrajectories s4))
      = .ok d) :
    runBody hooks engine s2
      = (.ok (), { assignTrajectories s4 with lastData := some d },
         [Event.setupDetectors, Event.setupTriggers,
          Event.startRun (s4.runId + 1)
            (mkScanArgs (assignTrajectories s4))]) := by
  simp only [runBody, hsd, hst, heng]

/-! Differential scan (`DScan.preScan` / `DScan.postScan`). -/

/-- Model of `DScan.preScan`: capture `self._start_positions =
[p.position for p in
self.positioners]`, then `self.paths = [np.array(path) + start for path,
start in zip(self.paths, self._start_positions)]` (elementwise shift into
absolute coordinates).  `AScan.preScan` (notification) has no state
effect. -/
def dscanPreScan {D T δ : Type} (s : ScanState D T δ) : ScanState D T δ :=
  { s with
    startPositions := s.positioners.map Positioner.position,
    paths := List.zipWith (fun path p0 => path.map (fun r => r + p0))
      s.paths (s.positioners.map Positioner.position) }

/-- Model of `DScan.postScan`: after the base post-scan (no state effect),
command
every positioner back to its captured start position with blocking moves,
then poll until none reports motion. -/
def dscanPostScan {D T δ : Type} (s : ScanState D T δ) : ScanState D T δ :=
  { s with positioners := moveAll s.positioners s.startPositions }

/-- The hook table of a `DScan` instance: `checkPaths`, `setupDetectors`
and `setupTriggers` inherit the base no-ops; `preScan`/`postScan` are the
differential overrides. -/
def dscanHooks (D T δ ε : Type) : ScanHooks D T δ ε :=
  { checkPaths := fun s => .ok s,
    preScan := fun s => .ok (dscanPreScan s),
    postScan := fun s => .ok (dscanPostScan s),
    setupDetectors := fun s => .ok s,
    setupTriggers := fun s => .ok s }

theorem setTrajectories_map_position (ps : List Positioner) :
    ∀ ts, (setTrajectories ps ts).map Positioner.position
      = ps.map Positioner.position := by
  induction ps with
  | nil => intro ts; cases ts <;> rfl
  | cons p ps ih =>
      intro ts
      cases ts with
      | nil => rfl
      | cons t ts => simp [setTrajectories, setTrajectory, ih]

theorem moveAll_map_position (ps : List Positioner) :
    ∀ sts, sts.length = ps.length →
      (moveAll ps sts).map Positioner.position = sts := by
  induction ps with
  | nil =>
      intro sts h
      cases sts with
      | nil => rfl
      | cons a b => simp at h
  | cons p ps ih =>
      intro sts h
      cases sts with
      | nil => simp at h
      | cons st sts =>
          simp only [moveAll, moveTo, List.map_cons]
          exact congrArg (st :: ·) (ih sts (by simpa using h))

/-- C1: for every `run()` in which `preScan()` completes (validation and
`__enter__` succeed), `postScan()` is invoked exactly once, and when
`setupDetectors()`, `setupTriggers()` or the ExecutionEngine call raises
(with `postScan()` itself succeeding), the original error propagates to the
caller rather than being swallowed. -/
theorem run_guaranteed_teardown {D T δ ε : Type} (hooks : ScanHooks D T δ ε)
    (engine : EngineCall D T δ ε) (s0 s1 s2 : ScanState D T δ)
    (h1 : hooks.checkPaths s0 = .ok s1) (h2 : hooks.preScan s1 = .ok s2)
    (hpost : ∀ s, ∃ t, hooks.postScan s = .ok t) :
    countPostScan (runScan hooks engine s0).trace = 1 ∧
    (∀ e, hooks.setupDetectors s2 = .error e →
        (runScan hooks engine s0).result = .error e) ∧
    (∀ s3 e, hooks.setupDetectors s2 = .ok s3 →
        hooks.setupTriggers s3 = .error e →
        (runScan hooks engine s0).result = .error e) ∧
    (∀ s3 s4 e, hooks.setupDetectors s2 = .ok s3 →
        hooks.setupTriggers s3 = .ok s4 →
        engine (s4.runId + 1) (mkScanArgs (assignTrajectories s4))
          = .error e →
        (runScan hooks engine s0).result = .error e) := by
  rcases hb : runBody hooks engine s2 with ⟨r, sb, tr⟩
  obtain ⟨sf, hp⟩ := hpost sb
  rw [runScan_eq_of_ok h1 h2 hb hp]
  refine ⟨?_, ?_, ?_, ?_⟩
  · have h0 := runBody_no_postScan hooks engine s2
    rw [hb] at h0
    simp only [countPostScan_shape]
    simpa using h0
  · intro e hsd
    have h := (runBody_eq_sdErr engine hsd).symm.trans hb
    have hr : r = Except.error e := by
      simpa using (congrArg Prod.fst h).symm
    exact hr
  · intro s3 e hsd hst
    have h := (runBody_eq_stErr engine hsd hst).symm.trans hb
    have hr : r = Except.error e := by
      simpa using (congrArg Prod.fst h).symm
    exact hr
  · intro s3 s4 e hsd hst heng
    have h := (runBody_eq_engErr hsd hst heng).symm.trans hb
    have hr : r = Except.error e := by
      simpa using (congrArg Prod.fst h).symm
    exact hr

/-- C10: if `checkPaths()` raises, neither `preScan()` nor `postScan()` is
invoked; if `preScan()` itself raises (after validation succeeded),
`postScan()` is never invoked — the guaranteed-teardown scope protects only
failures occurring after `preScan()` completes — and in both cases the
error propagates. -/
theorem prescan_failure_skips_teardown {D T δ ε : Type}
    (hooks : ScanHooks D T δ ε) (engine : EngineCall D T δ ε)
    (s0 s1 : ScanState D T δ) :
    (∀ e, hooks.checkPaths s0 = .error e →
        (runScan hooks engine s0).result = .error e ∧
        countPreScan (runScan hooks engine s0).trace = 0 ∧
        countPostScan (runScan hooks engine s0).trace = 0) ∧
    (∀ e, hooks.checkPaths s0 = .ok s1 → hooks.preScan s1 = .error e →
        (runScan hooks engine s0).result = .error e ∧
        countPostScan (runScan hooks engine s0).trace = 0) := by
  constructor
  · intro e h1
    simp [runScan, h1, countPreScan, countPostScan, isPreScanEvent,
      isPostScanEvent]
  · intro e h1 h2
    simp [runScan, h1, h2, countPostScan, isPostScanEvent]

/-- C7: with hooks that succeed and do not touch `_last_data` (as all hooks
in the repository do), an ExecutionEngine failure leaves the captured
dataset unchanged (`data` returns what it returned before the call) and the
error propagates after teardown; on success, `data` returns exactly the
dataset the engine returned. -/
theorem execution_error_preserves_data {D T δ ε : Type}
    (hooks : ScanHooks D T δ ε) (engine : EngineCall D T δ ε)
    (s0 s1 s2 s3 s4 : ScanState D T δ)
    (h1 : hooks.checkPaths s0 = .ok s1) (h2 : hooks.preScan s1 = .ok s2)
    (h3 : hooks.setupDetectors s2 = .ok s3)
    (h4 : hooks.setupTriggers s3 = .ok s4)
    (hd1 : s1.lastData = s0.lastData) (hd2 : s2.lastData = s1.lastData)
    (hd3 : s3.lastData = s2.lastData) (hd4 : s4.lastData = s3.lastData)
    (hpost : ∀ s, ∃ t, hooks.postScan s = .ok t ∧ t.lastData = s.lastData) :
    (∀ e, engine (s4.runId + 1) (mkScanArgs (assignTrajectories s4))
        = .error e →
      (runScan hooks engine s0).result = .error e ∧
      data (runScan hooks engine s0).state = data s0 ∧
      countPostScan (runScan hooks engine s0).trace = 1) ∧
    (∀ d, engine (s4.runId + 1) (mkScanArgs (assignTrajectories s4))
        = .ok d →
      (runScan hooks engine s0).result = .ok () ∧
      data (runScan hooks engine s0).state = some d) := by
  constructor
  · intro e heng
    obtain ⟨t, hp, hdt⟩ := hpost (assignTrajectories s4)
    rw [runScan_eq_of_ok h1 h2 (runBody_eq_engErr h3 h4 heng) hp]
    refine ⟨rfl, ?_, ?_⟩
    · show t.lastData = s0.lastData
      rw [hdt]
      show s4.lastData = s0.lastData
      rw [hd4, hd3, hd2, hd1]
    · rw [countPostScan_shape]
      simp [countPostScan, isPostScanEvent]
  · intro d heng
    obtain ⟨t, hp, hdt⟩ :=
      hpost { assignTrajectories s4 with lastData := some d }
    rw [runScan_eq_of_ok h1 h2 (runBody_eq_engOk h3 h4 heng) hp]
    exact ⟨rfl, hdt⟩

/-- C6 amended: with validation, `preScan`, `setupDetectors` and
`setupTriggers` succeeding, `run()` dispatches exactly one engine call,
whose run id is `self._run_id + 1` and whose `scan_args` dict has exactly
the keys detectors / triggers / positioners / settle_time, holding the
effective (layered) detector and trigger lists, the positioners — each
carrying its freshly assigned trajectory — and the settle time.  The
trajectories are conveyed only through the positioners; `scan_args` has no
separate trajectories entry. -/
theorem scan_request_contents {D T δ ε : Type} (hooks : ScanHooks D T δ ε)
    (engine : EngineCall D T δ ε) (s0 s1 s2 s3 s4 : ScanState D T δ)
    (h1 : hooks.checkPaths s0 = .ok s1) (h2 : hooks.preScan s1 = .ok s2)
    (h3 : hooks.setupDetectors s2 = .ok s3)
    (h4 : hooks.setupTriggers s3 = .ok s4) :
    (runScan hooks engine s0).trace
      = [Event.checkPaths, Event.preScan, Event.setupDetectors,
         Event.setupTriggers,
         Event.startRun (s4.runId + 1)
           (mkScanArgs (assignTrajectories s4)),
         Event.postScan] ∧
    mkScanArgs (assignTrajectories s4)
      = [("detectors", ScanArgVal.detectorList (effDetectors s4)),
         ("triggers", ScanArgVal.triggerList (effTriggers s4)),
         ("positioners", ScanArgVal.positionerList
            (setTrajectories s4.positioners s4.paths)),
         ("settle_time", ScanArgVal.settle s4.settleTime)] := by
  constructor
  · cases heng : engine (s4.runId + 1) (mkScanArgs (assignTrajectories s4))
      with
    | error e =>
        cases hp : hooks.postScan (assignTrajectories s4) with
        | error e2 =>
            simp [runScan, h1, h2, runBody, h3, h4, heng, hp]
        | ok sf =>
            simp [runScan, h1, h2, runBody, h3, h4, heng, hp]
    | ok d =>
        cases hp : hooks.postScan
            { assignTrajectories s4 with lastData := some d } with
        | error e2 =>
            simp [runScan, h1, h2, runBody, h3, h4, heng, hp]
        | ok sf =>
            simp [runScan, h1, h2, runBody, h3, h4, heng, hp]
  · rfl

/-- C8: the effective detector and trigger lists are layered, not
replacing — a per-scan list, when set, is followed by the configured
defaults (`effective = overrides ++ defaults`); with none set, the
effective list is the default list alone. -/
theorem layered_triggers_detectors {D T δ : Type} (s : ScanState D T δ) :
    (s.triggersOv = none → effTriggers s = s.defaultTriggers) ∧
    (∀ l, s.triggersOv = some l →
        effTriggers s = l ++ s.defaultTriggers) ∧
    (s.detectorsOv = none → effDetectors s = s.defaultDetectors) ∧
    (∀ l, s.detectorsOv = some l →
        effDetectors s = l ++ s.defaultDetectors) := by
  refine ⟨fun h => ?_, fun l h => ?_, fun h => ?_, fun l h => ?_⟩
  · simp [effTriggers, h]
  · simp [effTriggers, h]
  · simp [effDetectors, h]
  · simp [effDetectors, h]

/-- C4: for a differential scan, `preScan()` captures the current position
of each positioner as
current position `p0_i` and shifts every already-computed trajectory
elementwise by it (relative point `r` becomes absolute `r + p0_i`), and
after `run()` — whose teardown `postScan()` commands every positioner back
with blocking moves — the reported position of every positioner again
equals its
original `p0_i`, whether or not the engine call succeeded. -/
theorem differential_scan_restores_positions {D T δ ε : Type}
    (engine : EngineCall D T δ ε) (s0 : ScanState D T δ) :
    (runScan (dscanHooks D T δ ε) engine s0).state.paths
      = List.zipWith (fun path p0 => path.map (fun r => r + p0))
          s0.paths (s0.positioners.map Positioner.position) ∧
    (runScan (dscanHooks D T δ ε) engine s0).state.positioners.map
        Positioner.position
      = s0.positioners.map Positioner.position := by
  have hlen : (s0.positioners.map Positioner.position).length
      = (setTrajectories (dscanPreScan s0).positioners
          (dscanPreScan s0).paths).length := by
    have h := setTrajectories_map_position (dscanPreScan s0).positioners
      (dscanPreScan s0).paths
    have h2 := congrArg List.length h
    simp only [List.length_map] at h2 ⊢
    rw [h2]
    rfl
  have hmv := moveAll_map_position
    (setTrajectories (dscanPreScan s0).positioners (dscanPreScan s0).paths)
    (s0.positioners.map Positioner.position) hlen
  cases heng : engine ((dscanPreScan s0).runId + 1)
      (mkScanArgs (assignTrajectories (dscanPreScan s0))) with
  | error e =>
      constructor
      · simp only [runScan, dscanHooks, runBody, heng]
        rfl
      · simp only [runScan, dscanHooks, runBody, heng]
        simp only [dscanPostScan, assignTrajectories, dscanPreScan] at hmv ⊢
        exact hmv
  | ok d =>
      constructor
      · simp only [runScan, dscanHooks, runBody, heng]
        rfl
      · simp only [runScan, dscanHooks, runBody, heng]
        simp only [dscanPostScan, assignTrajectories, dscanPreScan] at hmv ⊢
        exact hmv

/-! Concrete instances used for witnesses and for evaluating the code at
specific inputs. -/

/-- The base-class hook table: every overridable hook is the no-op
(Python `pass`). -/
def idHooks (D T δ ε : Type) : ScanHooks D T δ ε :=
  { checkPaths := fun s => .ok s, preScan := fun s => .ok s,
    postScan := fun s => .ok s, setupDetectors := fun s => .ok s,
    setupTriggers := fun s => .ok s }

/-- An engine returning the run id it received as the dataset, so the
dispatched id can be observed. -/
def echoEngine (D T ε : Type) : EngineCall D T Nat ε :=
  fun i _ => .ok i

/-- An engine that always fails. -/
def failEngine (D T δ : Type) : EngineCall D T δ Nat :=
  fun _ _ => .error 9

/-- A hook table whose `setupDetectors` raises. -/
def failDetHooks : ScanHooks Nat Nat Nat Nat :=
  { idHooks Nat Nat Nat Nat with setupDetectors := fun _ => .error 7 }

/-- A hook table whose `preScan` raises. -/
def failPreHooks : ScanHooks Nat Nat Nat Nat :=
  { idHooks Nat Nat Nat Nat with preScan := fun _ => .error 3 }

/-- A hook table whose `checkPaths` raises. -/
def failCheckHooks : ScanHooks Nat Nat Nat Nat :=
  { idHooks Nat Nat Nat Nat with checkPaths := fun _ => .error 5 }

/-- First `run()` on a fresh instance with base hooks. -/
def firstRun : RunOutcome Nat Nat Nat Unit :=
  runScan (idHooks Nat Nat Nat Unit) (echoEngine Nat Nat Unit)
    (initState Nat Nat Nat)

/-- Second `run()` on the same instance. -/
def secondRun : RunOutcome Nat Nat Nat Unit :=
  runScan (idHooks Nat Nat Nat Unit) (echoEngine Nat Nat Unit)
    firstRun.state

/-- C5 (code bug): `Scan.run` passes `self._run_id + 1` to the engine but
never stores the increment, and `Scan.__init__` sets `_run_id = 0`.  So on
one instance both the first and the second successful `run()` dispatch run
id 1 — the spec expects the k-th invocation to use id k — and the `run_id`
accessor still returns 0 afterwards instead of the last id actually used,
contradicting its own docstring (it is documented to return the last run
id). -/
theorem run_id_never_incremented :
    firstRun.result = .ok () ∧ startRunIds firstRun.trace = [1] ∧
    run_id firstRun.state = 0 ∧ data firstRun.state = some 1 ∧
    secondRun.result = .ok () ∧ startRunIds secondRun.trace = [1] ∧
    run_id secondRun.state = 0 :=
  ⟨rfl, rfl, rfl, rfl, rfl, rfl, rfl⟩

/-- C6 counterexample: in a successful run of a fresh `Scan`, the
dispatched `scan_args` dict has exactly the keys detectors / triggers /
positioners / settle_time — there is no trajectories entry, so the request
does not contain the trajectories as a component as the claim states
(they travel only inside the positioners). -/
theorem scan_args_lack_trajectories_key :
    startRunArgs firstRun.trace = [mkScanArgs (initState Nat Nat Nat)] ∧
    (mkScanArgs (initState Nat Nat Nat)).map Prod.fst
      = ["detectors", "triggers", "positioners", "settle_time"] ∧
    ¬ ("trajectories" ∈ (mkScanArgs (initState Nat Nat Nat)).map
        Prod.fst) := by
  refine ⟨rfl, rfl, ?_⟩
  decide

/-- Witness for C1: forcing `setupDetectors` to fail, teardown still runs
exactly once and the error propagates. -/
theorem run_guaranteed_teardown_witness :
    countPostScan (runScan failDetHooks (failEngine Nat Nat Nat)
        (initState Nat Nat Nat)).trace = 1 ∧
    (runScan failDetHooks (failEngine Nat Nat Nat)
        (initState Nat Nat Nat)).result = .error 7 := by
  have h := run_guaranteed_teardown failDetHooks (failEngine Nat Nat Nat)
    (initState Nat Nat Nat) (initState Nat Nat Nat) (initState Nat Nat Nat)
    rfl rfl (fun s => ⟨s, rfl⟩)
  exact ⟨h.1, h.2.1 7 rfl⟩

/-- Witness for C10: a failing `checkPaths` skips both `preScan` and
`postScan`; a failing `preScan` skips `postScan`. -/
theorem prescan_failure_skips_teardown_witness :
    ((runScan failCheckHooks (failEngine Nat Nat Nat)
        (initState Nat Nat Nat)).result = .error 5 ∧
      countPreScan (runScan failCheckHooks (failEngine Nat Nat Nat)
        (initState Nat Nat Nat)).trace = 0 ∧
      countPostScan (runScan failCheckHooks (failEngine Nat Nat Nat)
        (initState Nat Nat Nat)).trace = 0) ∧
    ((runScan failPreHooks (failEngine Nat Nat Nat)
        (initState Nat Nat Nat)).result = .error 3 ∧
      countPostScan (runScan failPreHooks (failEngine Nat Nat Nat)
        (initState Nat Nat Nat)).trace = 0) :=
  ⟨(prescan_failure_skips_teardown failCheckHooks (failEngine Nat Nat Nat)
      (initState Nat Nat Nat) (initState Nat Nat Nat)).1 5 rfl,
   (prescan_failure_skips_teardown failPreHooks (failEngine Nat Nat Nat)
      (initState Nat Nat Nat) (initState Nat Nat Nat)).2 3 rfl rfl⟩

/-- Witness for C7: a failing engine leaves the dataset accessor unchanged
and the error propagates after teardown; a succeeding engine stores the
returned dataset. -/
theorem execution_error_preserves_data_witness :
    ((runScan (idHooks Nat Nat Nat Nat) (failEngine Nat Nat Nat)
        (initState Nat Nat Nat)).result = .error 9 ∧
      data (runScan (idHooks Nat Nat Nat Nat) (failEngine Nat Nat Nat)
        (initState Nat Nat Nat)).state = data (initState Nat Nat Nat) ∧
      countPostScan (runScan (idHooks Nat Nat Nat Nat)
        (failEngine Nat Nat Nat) (initState Nat Nat Nat)).trace = 1) ∧
    ((runScan (idHooks Nat Nat Nat Unit) (echoEngine Nat Nat Unit)
        (initState Nat Nat Nat)).result = .ok () ∧
      data (runScan (idHooks Nat Nat Nat Unit) (echoEngine Nat Nat Unit)
        (initState Nat Nat Nat)).state = some 1) :=
  ⟨(execution_error_preserves_data (idHooks Nat Nat Nat Nat)
      (failEngine Nat Nat Nat) (initState Nat Nat Nat)
      (initState Nat Nat Nat) (initState Nat Nat Nat) (initState Nat Nat Nat)
      (initState Nat Nat Nat) rfl rfl rfl rfl rfl rfl rfl rfl
      (fun s => ⟨s, rfl, rfl⟩)).1 9 rfl,
   (execution_error_preserves_data (idHooks Nat Nat Nat Unit)
      (echoEngine Nat Nat Unit) (initState Nat Nat Nat)
      (initState Nat Nat Nat) (initState Nat Nat Nat) (initState Nat Nat Nat)
      (initState Nat Nat Nat) rfl rfl rfl rfl rfl rfl rfl rfl
      (fun s => ⟨s, rfl, rfl⟩)).2 1 rfl⟩

/-- Witness for C6 (amended) on a fresh instance with base hooks. -/
theorem scan_request_contents_witness :
    (runScan (idHooks Nat Nat Nat Unit) (echoEngine Nat Nat Unit)
        (initState Nat Nat Nat)).trace
      = [Event.checkPaths, Event.preScan, Event.setupDetectors,
         Event.setupTriggers,
         Event.startRun ((initState Nat Nat Nat).runId + 1)
           (mkScanArgs (assignTrajectories (initState Nat Nat Nat))),
         Event.postScan] ∧
    mkScanArgs (assignTrajectories (initState Nat Nat Nat))
      = [("detectors", ScanArgVal.detectorList
            (effDetectors (initState Nat Nat Nat))),
         ("triggers", ScanArgVal.triggerList
            (effTriggers (initState Nat Nat Nat))),
         ("positioners", ScanArgVal.positionerList
            (setTrajectories (initState Nat Nat Nat).positioners
              (initState Nat Nat Nat).paths)),
         ("settle_time", ScanArgVal.settle
            (initState Nat Nat Nat).settleTime)] :=
  scan_request_contents (idHooks Nat Nat Nat Unit) (echoEngine Nat Nat Unit)
    (initState Nat Nat Nat) (initState Nat Nat Nat) (initState Nat Nat Nat)
    (initState Nat Nat Nat) (initState Nat Nat Nat) rfl rfl rfl rfl

/-- A state with per-scan trigger and detector lists set on top of
configured defaults. -/
def stateWithOverrides : ScanState Nat Nat Nat :=
  { initState Nat Nat Nat with
    triggersOv := some [1], detectorsOv := some [2],
    defaultTriggers := [3], defaultDetectors := [4] }

/-- Witness for C8: with per-scan lists set, effective = overrides then
defaults; with none set, effective = defaults alone. -/
theorem layered_triggers_detectors_witness :
    (effTriggers stateWithOverrides = [1] ++ [3] ∧
      effDetectors stateWithOverrides = [2] ++ [4]) ∧
    (effTriggers (initState Nat Nat Nat) = [] ∧
      effDetectors (initState Nat Nat Nat) = []) :=
  ⟨⟨(layered_triggers_detectors stateWithOverrides).2.1 [1] rfl,
    (layered_triggers_detectors stateWithOverrides).2.2.2 [2] rfl⟩,
   ⟨(layered_triggers_detectors (initState Nat Nat Nat)).1 rfl,
    (layered_triggers_detectors (initState Nat Nat Nat)).2.2.1 rfl⟩⟩

/-- Witness for C2 at the concrete two-dimensional spec D0 = (0,1,1),
D1 = (0,10,2) with one positioner per dimension. -/
theorem scanND_trajectory_lengths_witness :
    (([[0], [1]] : List (List Nat)).length = ([1, 2] : List Nat).length ∧
      ([(0 : ℚ), 0] : List ℚ).length = ([1, 2] : List Nat).length ∧
      ([(1 : ℚ), 10] : List ℚ).length = ([1, 2] : List Nat).length ∧
      (∀ c ∈ ([1, 2] : List Nat), 1 ≤ c)) ∧
    ((∀ path ∈ (scanNDGenerate [[0], [1]] [0, 0] [1, 10] [1, 2]).2,
        path.length = (([1, 2] : List Nat).map (· + 1)).prod) ∧
      (scanNDGenerate [[0], [1]] [0, 0] [1, 10] [1, 2]).2.length
        = (scanNDGenerate [[0], [1]] [0, 0] [1, 10] [1, 2]).1.length) :=
  ⟨⟨rfl, rfl, rfl, by decide⟩,
   scanND_trajectory_lengths [[0], [1]] [0, 0] [1, 10] [1, 2]
     rfl rfl rfl (by decide)⟩

end ScanApi
